import Mathlib

/-!
Verification of the record-linkage and deduplication pipeline of
`NFL_draft_statistical_analysis_(2000-2021).py`.

The embedding models the two tabular sources as lists of records, and the
four pipeline stages as pure functions over those lists:

* Loader: the two `pd.read_csv` calls (lines 38 and 108) — no schema check.
* Normalizer: `df.replace(to_replace='TEAM', value='COMMANDERS')` (line 77)
  and `convert_height_inches` (lines 186–196).
* Linker: the school-reconciliation loop over `df.iterrows()` (lines 130–138).
* Merger: `pd.merge(..., how='left', ...)` (line 150) followed by
  `drop_duplicates(subset=['Name','School','Year'], keep='first')` (line 177)
  and the `Pos`/`draft_year`/`Player` column drop (line 175).

Missing cells (pandas `NaN`) are modelled as `none`.
-/

namespace NFLDraft

/-- A row of the draft table `df`: columns `Name`, `Year`, `Round`, `Overall`,
`Position`, `School`, `Team`. -/
structure DraftRecord where
  name : String
  year : Int
  round : Int
  overall : Int
  position : String
  school : String
  team : String
deriving DecidableEq, Repr

/-- A row of `combine_df`: columns `Player`, `School`, `draft_year`, `Pos`,
`Ht`, `Wt`, `40yd`, `Vertical`, `Bench`, `Broad Jump`, `3Cone`, `Shuttle`.
Measurement cells may be `NaN` in the csv, hence `Option`. -/
structure CombineRecord where
  player : String
  school : String
  draft_year : Int
  pos : String
  ht : Option String
  wt : Option String
  forty : Option String
  vertical : Option String
  bench : Option String
  broad : Option String
  cone : Option String
  shuttle : Option String
deriving DecidableEq, Repr

/-! ## Source Loader (lines 38 and 108)

`pd.read_csv` is called with no schema validation whatsoever: whatever
columns the file has are accepted, no required-column check is performed and
no row is dropped or altered. -/

/-- A raw tabular source: a header row and data rows. -/
structure RawTable where
  cols : List String
  rows : List (List String)
deriving DecidableEq, Repr

/-- The load step, lines 38 and 108: `pd.read_csv(...)`.  The source performs
no required-column validation, so every table loads successfully and
unchanged; no `MalformedSourceError` (or any schema check) exists in the
code. -/
def loadSource (t : RawTable) : Except String RawTable := .ok t

/-! ## Normalizer: team aliasing (line 77)

`df = df.replace(to_replace='TEAM', value='COMMANDERS')` — a dataframe-wide
`replace`: every cell of `df` that is exactly the string `'TEAM'` becomes
`'COMMANDERS'`, in whatever column it sits; integer cells are unaffected. -/

/-- The cell-level rename table of line 77: `'TEAM' ↦ 'COMMANDERS'`, anything
else passes through. -/
def replaceTeamValue (v : String) : String :=
  if v = "TEAM" then "COMMANDERS" else v

/-- Line 77 applied to one draft row: `df.replace` acts on every cell of the
row, so each string column is passed through the rename table (the integer
columns `Year`, `Round`, `Overall` cannot equal the string `'TEAM'`). -/
def aliasDraft (d : DraftRecord) : DraftRecord :=
  { d with
    name := replaceTeamValue d.name
    position := replaceTeamValue d.position
    school := replaceTeamValue d.school
    team := replaceTeamValue d.team }

/-- Line 77 applied to the whole draft table. -/
def aliasDraftTable (ds : List DraftRecord) : List DraftRecord :=
  ds.map aliasDraft

/-! ## Normalizer: height decoding (lines 186–196)

```
def convert_height_inches(height):
    try:
        feet, inches = map(int, height.split('-'))
        total_inches = feet * 12 + inches
        return total_inches
    except:
        return None
```

`height.split('-')` is modelled by `splitDash` on the character list and
Python's `int(...)` by `pyInt?` (optional surrounding whitespace, optional
sign, then at least one digit; anything else raises, i.e. yields `none`).
The two-element unpacking fails unless the split has exactly two parts. -/

/-- Python `str.split('-')`: split at every dash; `''.split('-') == ['']`. -/
def splitDash : List Char → List (List Char)
  | [] => [[]]
  | '-' :: rest => [] :: splitDash rest
  | c :: rest =>
    match splitDash rest with
    | [] => [[c]]
    | h :: t => (c :: h) :: t

/-- Strip leading and trailing whitespace, as Python `int(...)` does. -/
def pyTrim (cs : List Char) : List Char :=
  ((cs.dropWhile Char.isWhitespace).reverse.dropWhile Char.isWhitespace).reverse

/-- Value of a non-empty digit string. -/
def digitsToNat (cs : List Char) : Nat :=
  cs.foldl (fun n c => n * 10 + (c.toNat - 48)) 0

/-- Python `int(s)` on a string: optional whitespace, optional single sign,
then one or more digits; every other input raises `ValueError` (`none`). -/
def pyInt? (cs : List Char) : Option Int :=
  match pyTrim cs with
  | '+' :: rest =>
    if rest ≠ [] ∧ rest.all Char.isDigit then some (digitsToNat rest) else none
  | '-' :: rest =>
    if rest ≠ [] ∧ rest.all Char.isDigit then some (-(digitsToNat rest : Int)) else none
  | rest =>
    if rest ≠ [] ∧ rest.all Char.isDigit then some (digitsToNat rest) else none

/-- Lines 186–196: `convert_height_inches`.  Returns `feet * 12 + inches`
when the dash-split has exactly two integer parts, `none` otherwise (the
bare `except` swallows every error). -/
def convert_height_inches (height : String) : Option Int :=
  match splitDash height.data with
  | [a, b] =>
    match pyInt? a, pyInt? b with
    | some f, some i => some (f * 12 + i)
    | _, _ => none
  | _ => none

/-! ## Linker: school reconciliation (lines 130–138)

```
for index, row in df.iterrows():
    matching_row_index = (combine_df['Player'] == row['Name']) & (combine_df['draft_year'] == row['Year'])
    matching_row = combine_df[matching_row_index]
    if not matching_row.empty:
        combine_df.loc[matching_row_index, 'School'] = row['School']
```

Each draft row in table order overwrites the `School` of every combine row
whose `Player`/`draft_year` match its `Name`/`Year`; a later draft row with
the same key overwrites again. -/

/-- The Linker's match condition: `Player == Name and draft_year == Year`. -/
def matchKey (d : DraftRecord) (c : CombineRecord) : Bool :=
  c.player == d.name && c.draft_year == d.year

/-- Overwrite the `School` cell of a combine row. -/
def setSchool (c : CombineRecord) (s : String) : CombineRecord :=
  { c with school := s }

/-- One iteration of the loop of lines 130–138: the draft row `d` overwrites
the school of every matching combine row. -/
def linkStep (cs : List CombineRecord) (d : DraftRecord) : List CombineRecord :=
  cs.map fun c => if matchKey d c then setSchool c d.school else c

/-- Lines 130–138: the whole reconciliation pass, one `linkStep` per draft
row, in the draft table's row order. -/
def linkSchools (ds : List DraftRecord) (cs : List CombineRecord) : List CombineRecord :=
  ds.foldl linkStep cs

/-- The pass of lines 130–138 as seen by a single combine row: each draft row
in order overwrites its school on a key match. -/
def applyMatches (ds : List DraftRecord) (c : CombineRecord) : CombineRecord :=
  ds.foldl (fun c d => if matchKey d c then setSchool c d.school else c) c

/-- The draft rows matching a combine row, with the last one winning: `none`
when no draft row matches. -/
def lastMatch? (ds : List DraftRecord) (c : CombineRecord) : Option DraftRecord :=
  (ds.filter fun d => matchKey d c).getLast?

/-! ## Merger (lines 150, 175, 177)

Line 150:
`pd.merge(df, combine_df, how='left', left_on=['Name','School','Year'], right_on=['Player','School','draft_year'])`
— every draft row is kept; with no matching combine row its measurement
cells are `NaN`; with k matching combine rows it fans out into k output
rows, in the combine table's row order.  Line 175 drops the redundant
`Pos`, `draft_year`, `Player` columns; line 177 drops duplicate
`(Name, School, Year)` keys keeping the first occurrence. -/

/-- The merge condition of line 150:
`Player == Name and School == School and draft_year == Year`. -/
def joinMatch (d : DraftRecord) (c : CombineRecord) : Bool :=
  c.player == d.name && c.school == d.school && c.draft_year == d.year

/-- A row of `merged_data` after the column drop of line 175: the draft
columns plus the combine measurement columns (`Ht` still the raw string). -/
structure MergedRecord where
  name : String
  year : Int
  round : Int
  overall : Int
  position : String
  school : String
  team : String
  ht : Option String
  wt : Option String
  forty : Option String
  vertical : Option String
  bench : Option String
  broad : Option String
  cone : Option String
  shuttle : Option String
deriving DecidableEq, Repr

/-- A merged row built from a draft row and a matching combine row. -/
def mkMerged (d : DraftRecord) (c : CombineRecord) : MergedRecord :=
  { name := d.name, year := d.year, round := d.round, overall := d.overall
    position := d.position, school := d.school, team := d.team
    ht := c.ht, wt := c.wt, forty := c.forty, vertical := c.vertical
    bench := c.bench, broad := c.broad, cone := c.cone, shuttle := c.shuttle }

/-- The merged row of a draft row with no combine match: the left join fills
every combine measurement cell with `NaN`. -/
def unmatchedRow (d : DraftRecord) : MergedRecord :=
  { name := d.name, year := d.year, round := d.round, overall := d.overall
    position := d.position, school := d.school, team := d.team
    ht := none, wt := none, forty := none, vertical := none
    bench := none, broad := none, cone := none, shuttle := none }

/-- The block of output rows the left join of line 150 produces for one
draft row: one all-missing row when nothing matches, otherwise one row per
matching combine row in combine-table order. -/
def joinRows (cs : List CombineRecord) (d : DraftRecord) : List MergedRecord :=
  match cs.filter (joinMatch d) with
  | [] => [unmatchedRow d]
  | ms => ms.map (mkMerged d)

/-- Line 150: the left outer join, draft rows in order, each contributing its
block of output rows. -/
def mergeLeft : List DraftRecord → List CombineRecord → List MergedRecord
  | [], _ => []
  | d :: ds, cs => joinRows cs d ++ mergeLeft ds cs

/-- The composite key `(Name, School, Year)` of a draft row. -/
def draftKey (d : DraftRecord) : String × String × Int :=
  (d.name, d.school, d.year)

/-- The composite key `(Name, School, Year)` of a merged row. -/
def mergedKey (m : MergedRecord) : String × String × Int :=
  (m.name, m.school, m.year)

/-- Worker of line 177's `drop_duplicates(subset=['Name','School','Year'],
keep='first')`: keep a row iff its key was not seen earlier. -/
def dedupGo (seen : List (String × String × Int)) :
    List MergedRecord → List MergedRecord
  | [] => []
  | r :: rs =>
    if mergedKey r ∈ seen then dedupGo seen rs
    else r :: dedupGo (mergedKey r :: seen) rs

/-- Line 177: `merged_data.drop_duplicates(subset=['Name','School','Year'], keep='first')`. -/
def dedupByKey (rs : List MergedRecord) : List MergedRecord :=
  dedupGo [] rs

/-! ## Height column conversion (line 199)

`merged_data['Ht'] = merged_data['Ht'].apply(convert_height_inches)` — the
conversion runs after the merge, so unmatched rows feed `NaN` (a non-string)
into `convert_height_inches`; `height.split` then raises and the bare
`except` returns `None`. -/

/-- One `Ht` cell through `convert_height_inches`: a `NaN` cell raises at
`height.split('-')` and the bare `except` turns it into `None`. -/
def convertHtCell : Option String → Option Int
  | none => none
  | some s => convert_height_inches s

/-- A row of `merged_data` after line 199: `Ht` is now integer inches (or
missing), every other column untouched. -/
structure FinalRecord where
  name : String
  year : Int
  round : Int
  overall : Int
  position : String
  school : String
  team : String
  ht : Option Int
  wt : Option String
  forty : Option String
  vertical : Option String
  bench : Option String
  broad : Option String
  cone : Option String
  shuttle : Option String
deriving DecidableEq, Repr

/-- Line 199 applied to one row. -/
def convertRow (m : MergedRecord) : FinalRecord :=
  { name := m.name, year := m.year, round := m.round, overall := m.overall
    position := m.position, school := m.school, team := m.team
    ht := convertHtCell m.ht
    wt := m.wt, forty := m.forty, vertical := m.vertical
    bench := m.bench, broad := m.broad, cone := m.cone, shuttle := m.shuttle }

/-- Line 199: `merged_data['Ht'].apply(convert_height_inches)`. -/
def convertHtColumn (rs : List MergedRecord) : List FinalRecord :=
  rs.map convertRow

/-! ## Concrete sample rows

The spec's own test vectors (§8): the Jane Doe draft/combine pair, a second
draft row colliding on `(Name, Year)`, and a combine row that matches
nothing. -/

def dJane : DraftRecord :=
  { name := "Jane Doe", year := 2015, round := 1, overall := 1,
    position := "QB", school := "Boston College", team := "PATRIOTS" }

def dJane2 : DraftRecord :=
  { name := "Jane Doe", year := 2015, round := 1, overall := 2,
    position := "QB", school := "Somewhere State", team := "JETS" }

def cJane : CombineRecord :=
  { player := "Jane Doe", school := "Boston Col.", draft_year := 2015,
    pos := "QB", ht := some "6-2", wt := some "210", forty := none,
    vertical := none, bench := none, broad := none, cone := none,
    shuttle := none }

def cOther : CombineRecord :=
  { cJane with player := "John Roe" }

/-! ## Lemmas about the Linker -/

theorem getLast?_cons_getD {α : Type} (a : α) (l : List α) :
    (a :: l).getLast? = some (l.getLast?.getD a) := by
  induction l generalizing a with
  | nil => rfl
  | cons b l ih =>
    rw [List.getLast?_cons_cons, ih b]
    simp

theorem matchKey_setSchool (d : DraftRecord) (c : CombineRecord) (s : String) :
    matchKey d (setSchool c s) = matchKey d c := rfl

theorem applyMatches_cons (d : DraftRecord) (ds : List DraftRecord)
    (c : CombineRecord) :
    applyMatches (d :: ds) c =
      applyMatches ds (if matchKey d c then setSchool c d.school else c) := rfl

theorem applyMatches_player (ds : List DraftRecord) :
    ∀ c : CombineRecord, (applyMatches ds c).player = c.player := by
  induction ds with
  | nil => intro c; rfl
  | cons d ds ih =>
    intro c
    rw [applyMatches_cons, ih]
    by_cases h : matchKey d c <;> simp [h, setSchool]

theorem applyMatches_draft_year (ds : List DraftRecord) :
    ∀ c : CombineRecord, (applyMatches ds c).draft_year = c.draft_year := by
  induction ds with
  | nil => intro c; rfl
  | cons d ds ih =>
    intro c
    rw [applyMatches_cons, ih]
    by_cases h : matchKey d c <;> simp [h, setSchool]

/-- The pass `linkSchools` is row-wise: it maps `applyMatches` over the
combine table. -/
theorem linkSchools_eq_map (ds : List DraftRecord) :
    ∀ cs : List CombineRecord, linkSchools ds cs = cs.map (applyMatches ds) := by
  induction ds with
  | nil =>
    intro cs
    rw [show (applyMatches [] : CombineRecord → CombineRecord) = id from rfl,
      List.map_id]
    rfl
  | cons d ds ih =>
    intro cs
    show linkSchools ds (linkStep cs d) = _
    rw [ih, linkStep, List.map_map]
    rfl

theorem lastMatch?_congr (ds : List DraftRecord) (c c' : CombineRecord)
    (h : ∀ d, matchKey d c' = matchKey d c) :
    lastMatch? ds c' = lastMatch? ds c := by
  unfold lastMatch?
  rw [List.filter_congr (fun d _ => h d)]

theorem lastMatch?_cons (d : DraftRecord) (ds : List DraftRecord)
    (c : CombineRecord) :
    lastMatch? (d :: ds) c =
      if matchKey d c then some ((lastMatch? ds c).getD d) else lastMatch? ds c := by
  unfold lastMatch?
  rw [List.filter_cons]
  by_cases h : matchKey d c
  · simp only [h, if_true]
    cases hf : List.filter (fun d => matchKey d c) ds with
    | nil => simp [hf]
    | cons a l => simp [hf, getLast?_cons_getD]
  · simp [h]

/-- What the Linker pass does to one combine row's school: the last draft row
(in draft-table order) whose `Name`/`Year` match wins; with no match the
school is untouched. -/
theorem applyMatches_school (ds : List DraftRecord) :
    ∀ c : CombineRecord,
      (applyMatches ds c).school =
        ((lastMatch? ds c).elim c.school fun d => d.school) := by
  induction ds with
  | nil => intro c; rfl
  | cons d ds ih =>
    intro c
    rw [applyMatches_cons, lastMatch?_cons]
    by_cases h : matchKey d c
    · simp only [h, if_true]
      rw [ih (setSchool c d.school),
        lastMatch?_congr ds c (setSchool c d.school)
          (fun d' => matchKey_setSchool d' c d.school)]
      cases lastMatch? ds c <;> simp [setSchool]
    · simp only [h, if_false]
      exact ih c

/-! ## Lemmas about the Merger -/

theorem mergeLeft_cons (d : DraftRecord) (ds : List DraftRecord)
    (cs : List CombineRecord) :
    mergeLeft (d :: ds) cs = joinRows cs d ++ mergeLeft ds cs := rfl

theorem joinRows_ne_nil (cs : List CombineRecord) (d : DraftRecord) :
    joinRows cs d ≠ [] := by
  unfold joinRows
  cases hf : cs.filter (joinMatch d) with
  | nil => simp
  | cons a l => simp

theorem mergedKey_joinRows (cs : List CombineRecord) (d : DraftRecord) :
    ∀ m ∈ joinRows cs d, mergedKey m = draftKey d := by
  unfold joinRows
  cases hf : cs.filter (joinMatch d) with
  | nil =>
    intro m hm
    simp only [List.mem_singleton] at hm
    subst hm
    rfl
  | cons a l =>
    intro m hm
    simp only [List.mem_map] at hm
    obtain ⟨c, _, rfl⟩ := hm
    rfl

theorem mem_mergeLeft_of_mem_joinRows (ds : List DraftRecord)
    (cs : List CombineRecord) (d : DraftRecord) (m : MergedRecord)
    (hd : d ∈ ds) (hm : m ∈ joinRows cs d) : m ∈ mergeLeft ds cs := by
  induction ds with
  | nil => cases hd
  | cons d' ds ih =>
    rw [mergeLeft_cons]
    cases List.mem_cons.mp hd with
    | inl e => subst e; exact List.mem_append_left _ hm
    | inr hd' => exact List.mem_append_right _ (ih hd')

/-- The keys occurring in the join output are exactly the draft-table keys. -/
theorem mem_map_mergedKey_mergeLeft (ds : List DraftRecord)
    (cs : List CombineRecord) (k : String × String × Int) :
    k ∈ (mergeLeft ds cs).map mergedKey ↔ k ∈ ds.map draftKey := by
  induction ds with
  | nil => simp [mergeLeft]
  | cons d ds ih =>
    rw [mergeLeft_cons]
    simp only [List.map_append, List.mem_append, List.map_cons, List.mem_cons, ih]
    constructor
    · rintro (hk | hk)
      · left
        obtain ⟨m, hm, rfl⟩ := List.mem_map.mp hk
        exact mergedKey_joinRows cs d m hm
      · right; exact hk
    · rintro (rfl | hk)
      · left
        obtain ⟨m, hm⟩ := List.exists_mem_of_ne_nil _ (joinRows_ne_nil cs d)
        exact List.mem_map.mpr ⟨m, hm, mergedKey_joinRows cs d m hm⟩
      · right; exact hk

theorem dedupGo_cons_mem {seen : List (String × String × Int)}
    {r : MergedRecord} {rs : List MergedRecord} (h : mergedKey r ∈ seen) :
    dedupGo seen (r :: rs) = dedupGo seen rs := by
  simp [dedupGo, h]

theorem dedupGo_cons_not_mem {seen : List (String × String × Int)}
    {r : MergedRecord} {rs : List MergedRecord} (h : mergedKey r ∉ seen) :
    dedupGo seen (r :: rs) = r :: dedupGo (mergedKey r :: seen) rs := by
  simp [dedupGo, h]

/-- Keys surviving `dedupGo`: those of the input not already seen. -/
theorem mem_map_mergedKey_dedupGo (rs : List MergedRecord) :
    ∀ (seen : List (String × String × Int)) (k : String × String × Int),
      k ∈ (dedupGo seen rs).map mergedKey ↔ k ∈ rs.map mergedKey ∧ k ∉ seen := by
  induction rs with
  | nil => intro seen k; simp [dedupGo]
  | cons r rs ih =>
    intro seen k
    by_cases h : mergedKey r ∈ seen
    · rw [dedupGo_cons_mem h, ih]
      simp only [List.map_cons, List.mem_cons]
      constructor
      · rintro ⟨hk, hns⟩; exact ⟨Or.inr hk, hns⟩
      · rintro ⟨hk | hk, hns⟩
        · subst hk; exact absurd h hns
        · exact ⟨hk, hns⟩
    · rw [dedupGo_cons_not_mem h]
      simp only [List.map_cons, List.mem_cons, ih]
      constructor
      · rintro (rfl | ⟨hk, hns⟩)
        · exact ⟨Or.inl rfl, h⟩
        · exact ⟨Or.inr hk, fun hs => hns (Or.inr hs)⟩
      · rintro ⟨rfl | hk, hns⟩
        · exact Or.inl rfl
        · by_cases hkr : k = mergedKey r
          · exact Or.inl hkr
          · exact Or.inr ⟨hk, fun hs => hs.elim hkr hns⟩

/-- After `dedupGo` no key occurs twice. -/
theorem nodup_map_mergedKey_dedupGo (rs : List MergedRecord) :
    ∀ seen : List (String × String × Int),
      ((dedupGo seen rs).map mergedKey).Nodup := by
  induction rs with
  | nil => intro seen; simp [dedupGo]
  | cons r rs ih =>
    intro seen
    by_cases h : mergedKey r ∈ seen
    · rw [dedupGo_cons_mem h]; exact ih seen
    · rw [dedupGo_cons_not_mem h]
      simp only [List.map_cons, List.nodup_cons]
      refine ⟨fun hm => ?_, ih _⟩
      exact ((mem_map_mergedKey_dedupGo rs _ _).mp hm).2 (List.mem_cons_self _ _)

/-- For each key, `dedupGo` keeps exactly the first input row bearing it. -/
theorem dedupGo_filter_key (rs : List MergedRecord) :
    ∀ (seen : List (String × String × Int)) (k : String × String × Int),
      (dedupGo seen rs).filter (fun r => decide (mergedKey r = k)) =
        if k ∈ seen then []
        else (rs.filter fun r => decide (mergedKey r = k)).take 1 := by
  induction rs with
  | nil => intro seen k; by_cases h : k ∈ seen <;> simp [dedupGo, h]
  | cons r rs ih =>
    intro seen k
    by_cases h : mergedKey r ∈ seen
    · rw [dedupGo_cons_mem h, ih]
      by_cases hks : k ∈ seen
      · simp [hks]
      · have hrk : ¬ mergedKey r = k := fun e => hks (e ▸ h)
        rw [if_neg hks, if_neg hks, List.filter_cons, if_neg (by simp [hrk])]
    · rw [dedupGo_cons_not_mem h, List.filter_cons]
      by_cases hrk : mergedKey r = k
      · rw [if_pos (by simp [hrk]), ih,
          if_pos (show k ∈ mergedKey r :: seen from hrk ▸ List.mem_cons_self _ _),
          if_neg (show k ∉ seen from hrk ▸ h), List.filter_cons,
          if_pos (by simp [hrk])]
        rfl
      · rw [if_neg (by simp [hrk]), ih]
        by_cases hks : k ∈ seen
        · rw [if_pos (List.mem_cons_of_mem _ hks), if_pos hks]
        · rw [if_neg (fun hm => (List.mem_cons.mp hm).elim (fun e => hrk e.symm) hks),
            if_neg hks, List.filter_cons, if_neg (by simp [hrk])]

/-! ## The claims -/

/-- Claim C1: for every pair of input tables, after the left join of line 150
and the key-dedup of line 177 the output row count equals the number of
distinct `(Name, School, Year)` keys of the draft table — never less — and
every key occurring among the draft rows appears in the output exactly once
(the join fan-out is fully corrected). -/
theorem merger_join_complete_unique (ds : List DraftRecord)
    (cs : List CombineRecord) :
    (dedupByKey (mergeLeft ds cs)).length = (ds.map draftKey).dedup.length ∧
    ∀ k : String × String × Int, k ∈ ds.map draftKey →
      ((dedupByKey (mergeLeft ds cs)).filter fun r =>
        decide (mergedKey r = k)).length = 1 := by
  constructor
  · have h1 : ((dedupByKey (mergeLeft ds cs)).map mergedKey).Nodup :=
      nodup_map_mergedKey_dedupGo _ []
    have h2 : ∀ k, k ∈ (dedupByKey (mergeLeft ds cs)).map mergedKey ↔
        k ∈ ds.map draftKey := by
      intro k
      rw [dedupByKey, mem_map_mergedKey_dedupGo, mem_map_mergedKey_mergeLeft]
      simp
    calc (dedupByKey (mergeLeft ds cs)).length
        = ((dedupByKey (mergeLeft ds cs)).map mergedKey).length :=
          (List.length_map _ _).symm
      _ = ((dedupByKey (mergeLeft ds cs)).map mergedKey).toFinset.card :=
          (List.toFinset_card_of_nodup h1).symm
      _ = (ds.map draftKey).toFinset.card := by
          congr 1
          ext k
          simp only [List.mem_toFinset]
          exact h2 k
      _ = (ds.map draftKey).dedup.length := List.card_toFinset _
  · intro k hk
    rw [dedupByKey, dedupGo_filter_key, if_neg (List.not_mem_nil k)]
    have hk' : k ∈ (mergeLeft ds cs).map mergedKey :=
      (mem_map_mergedKey_mergeLeft ds cs k).mpr hk
    obtain ⟨m, hm, hkm⟩ := List.mem_map.mp hk'
    have hmf : m ∈ (mergeLeft ds cs).filter fun r => decide (mergedKey r = k) :=
      List.mem_filter.mpr ⟨hm, by simp [hkm]⟩
    rw [List.length_take]
    have hpos : 0 < ((mergeLeft ds cs).filter fun r =>
        decide (mergedKey r = k)).length :=
      List.length_pos.mpr (List.ne_nil_of_mem hmf)
    omega

/-- Witness for C1 at a one-row draft table and an empty combine table. -/
theorem merger_join_complete_unique_witness :
    ((dedupByKey (mergeLeft [dJane] [])).filter fun r =>
      decide (mergedKey r = ("Jane Doe", "Boston College", 2015))).length = 1 :=
  (merger_join_complete_unique [dJane] []).2
    ("Jane Doe", "Boston College", 2015) (by decide)

/-- Claim C2: line 177's
`drop_duplicates(subset=['Name','School','Year'], keep='first')` keeps, for
every `(Name, School, Year)` key of any merged table, exactly the first row
carrying it in original row order and discards the rest; the retained row is
determined by the input ordering alone (no scoring heuristic). -/
theorem merger_dedup_first_wins (rs : List MergedRecord)
    (k : String × String × Int) :
    (dedupByKey rs).filter (fun r => decide (mergedKey r = k)) =
      (rs.filter fun r => decide (mergedKey r = k)).take 1 := by
  rw [dedupByKey, dedupGo_filter_key, if_neg (List.not_mem_nil k)]

/-- Claim C3: the merge of line 150 is a left outer join on
`(Name, School, Year) = (Player, School, draft_year)`: a draft row with no
matching combine row yields exactly one output row, its draft columns copied
unchanged and every combine measurement column missing. -/
theorem merger_left_join_unmatched (ds : List DraftRecord)
    (cs : List CombineRecord) (d : DraftRecord) (hd : d ∈ ds)
    (hnm : ∀ c ∈ cs, joinMatch d c = false) :
    joinRows cs d = [{ name := d.name, year := d.year, round := d.round,
                       overall := d.overall, position := d.position,
                       school := d.school, team := d.team, ht := none,
                       wt := none, forty := none, vertical := none,
                       bench := none, broad := none, cone := none,
                       shuttle := none }] ∧
    unmatchedRow d ∈ mergeLeft ds cs := by
  have hf : cs.filter (joinMatch d) = [] :=
    List.filter_eq_nil_iff.mpr (by intro c hc; simp [hnm c hc])
  have hjr : joinRows cs d = [unmatchedRow d] := by
    unfold joinRows
    rw [hf]
  exact ⟨hjr, mem_mergeLeft_of_mem_joinRows ds cs d _ hd
    (hjr ▸ List.mem_cons_self _ _)⟩

/-- Witness for C3: Jane Doe's draft row against a combine table holding only
a non-matching row. -/
theorem merger_left_join_unmatched_witness :
    unmatchedRow dJane ∈ mergeLeft [dJane] [cOther] :=
  (merger_left_join_unmatched [dJane] [cOther] dJane (List.mem_cons_self _ _)
    (by decide)).2

/-- Claim C4 as stated is false on the code: when two draft rows share
`(Name, Year)` but disagree on `School`, the loop of lines 130–138 leaves
the matching combine row with the SECOND row's school, not the first's. -/
theorem linker_school_reconciliation_cex :
    ¬ (∀ (ds : List DraftRecord) (cs : List CombineRecord)
        (c : CombineRecord), c ∈ linkSchools ds cs → ∀ d ∈ ds,
          c.player = d.name → c.draft_year = d.year → c.school = d.school) := by
  intro hclaim
  have h := hclaim [dJane, dJane2] [cJane] (setSchool cJane "Somewhere State")
    (by decide) dJane (by decide) (by decide) (by decide)
  exact absurd h (by decide)

/-- Claim C4 (amended): after the Linker pass every CombineRecord matching a
DraftRecord's `(name, year)` carries the school of the LAST matching
DraftRecord in draft-table order — so whenever a single DraftRecord matches
(the Jane Doe case), or all matching DraftRecords agree on school, the
CombineRecord's school equals that DraftRecord's school. -/
theorem linker_school_reconciliation_amended (ds : List DraftRecord)
    (cs : List CombineRecord) (c : CombineRecord) (d : DraftRecord)
    (hc : c ∈ cs)
    (hlast : (ds.filter fun d => matchKey d c).getLast? = some d) :
    applyMatches ds c ∈ linkSchools ds cs ∧
    (applyMatches ds c).school = d.school ∧
    (applyMatches ds c).player = c.player ∧
    (applyMatches ds c).draft_year = c.draft_year := by
  refine ⟨?_, ?_, applyMatches_player ds c, applyMatches_draft_year ds c⟩
  · rw [linkSchools_eq_map]
    exact List.mem_map_of_mem _ hc
  · rw [applyMatches_school ds c, show lastMatch? ds c = some d from hlast]
    rfl

/-- Witness for the amended C4: the spec's Jane Doe school-reconciliation
vector ends with school `Boston College`. -/
theorem linker_school_reconciliation_amended_witness :
    (applyMatches [dJane] cJane).school = dJane.school ∧
    dJane.school = "Boston College" :=
  ⟨(linker_school_reconciliation_amended [dJane] [cJane] cJane dJane
      (by decide) (by decide)).2.1, rfl⟩

/-- Claim C9: the Linker's overwrite is last-DraftRecord-wins — the pass maps
each combine row through `applyMatches`, which keeps `Player` and
`draft_year` and sets `School` to the school of the last draft row (in
draft-table order) whose `(Name, Year)` match, leaving it untouched when none
does. -/
theorem linker_last_draft_wins (ds : List DraftRecord)
    (cs : List CombineRecord) :
    linkSchools ds cs = cs.map (applyMatches ds) ∧
    ∀ c : CombineRecord,
      (applyMatches ds c).player = c.player ∧
      (applyMatches ds c).draft_year = c.draft_year ∧
      (applyMatches ds c).school =
        ((ds.filter fun d => matchKey d c).getLast?.elim c.school
          fun d => d.school) :=
  ⟨linkSchools_eq_map ds cs, fun c =>
    ⟨applyMatches_player ds c, applyMatches_draft_year ds c, by
      rw [applyMatches_school ds c]; rfl⟩⟩

/-- Claim C5: `convert_height_inches` maps every string whose dash-split is
two integer parts to `feet * 12 + inches` — so `"6-2"` to `74` and `"5-11"`
to `71` — and every other input, including `"garbage"` and `""`, to missing
instead of an error. -/
theorem normalizer_height_decoding :
    convert_height_inches "6-2" = some 74 ∧
    convert_height_inches "5-11" = some 71 ∧
    convert_height_inches "garbage" = none ∧
    convert_height_inches "" = none ∧
    (∀ (s : String) (a b : List Char) (f i : Int),
      splitDash s.data = [a, b] → pyInt? a = some f → pyInt? b = some i →
        convert_height_inches s = some (f * 12 + i)) ∧
    (∀ s : String,
      ¬ (∃ (a b : List Char) (f i : Int), splitDash s.data = [a, b] ∧
          pyInt? a = some f ∧ pyInt? b = some i) →
        convert_height_inches s = none) := by
  refine ⟨by decide, by decide, by decide, by decide, ?_, ?_⟩
  · intro s a b f i hsp ha hb
    simp [convert_height_inches, hsp, ha, hb]
  · intro s hno
    unfold convert_height_inches
    split
    · next a b heq =>
      split
      · next f i hf hi => exact absurd ⟨a, b, f, i, heq, hf, hi⟩ hno
      · rfl
    · rfl

/-- Witness for C5's generic conversion shape at the input 7 feet 3 inches. -/
theorem normalizer_height_decoding_witness :
    convert_height_inches "7-3" = some 87 :=
  normalizer_height_decoding.2.2.2.2.1 "7-3" "7".data "3".data 7 3
    (by decide) (by decide) (by decide)

/-- Claim C6: the team rename of line 77 is a total function — every value
yields a result, values outside the rename table pass through unchanged —
and applying it twice gives the same result as applying it once, both on a
single cell and on a whole draft row. -/
theorem normalizer_alias_total_idempotent :
    (∀ v : String, replaceTeamValue v = "COMMANDERS" ∨ replaceTeamValue v = v) ∧
    (∀ v : String, v ≠ "TEAM" → replaceTeamValue v = v) ∧
    (∀ v : String, replaceTeamValue (replaceTeamValue v) = replaceTeamValue v) ∧
    ∀ d : DraftRecord, aliasDraft (aliasDraft d) = aliasDraft d := by
  have hid : ∀ v, replaceTeamValue (replaceTeamValue v) = replaceTeamValue v := by
    intro v
    by_cases h : v = "TEAM"
    · subst h; decide
    · have hv : replaceTeamValue v = v := by rw [replaceTeamValue, if_neg h]
      rw [hv]
      exact hv
  refine ⟨?_, ?_, hid, ?_⟩
  · intro v
    by_cases h : v = "TEAM"
    · left; rw [replaceTeamValue, if_pos h]
    · right; rw [replaceTeamValue, if_neg h]
  · intro v h
    rw [replaceTeamValue, if_neg h]
  · intro d
    simp [aliasDraft, hid]

/-- Witness for C6's pass-through clause at a value outside the table. -/
theorem normalizer_alias_total_idempotent_witness :
    replaceTeamValue "JETS" = "JETS" :=
  normalizer_alias_total_idempotent.2.1 "JETS" (by decide)

/-- Claim C7 as stated is false on the code: line 77's `replace` is
dataframe-wide, so a draft row whose School cell is exactly `'TEAM'` has its
School changed too — the step does not modify only the Team column. -/
theorem normalizer_alias_frame_cex :
    ¬ (∀ d : DraftRecord,
        (aliasDraft d).name = d.name ∧ (aliasDraft d).year = d.year ∧
        (aliasDraft d).round = d.round ∧ (aliasDraft d).overall = d.overall ∧
        (aliasDraft d).position = d.position ∧
        (aliasDraft d).school = d.school) := by
  intro h
  have hs := (h { name := "A", year := 2000, round := 1, overall := 1,
                  position := "QB", school := "TEAM",
                  team := "JETS" }).2.2.2.2.2
  exact absurd hs (by decide)

/-- Claim C7 (amended): the rename of line 77 touches every column, so the
numeric columns are unchanged, the Team column goes through the rename
table, and each other string column is unchanged unless its cell is exactly
`'TEAM'` (in which case it too becomes `'COMMANDERS'`). -/
theorem normalizer_alias_frame_amended (d : DraftRecord) :
    (aliasDraft d).year = d.year ∧ (aliasDraft d).round = d.round ∧
    (aliasDraft d).overall = d.overall ∧
    (aliasDraft d).team = replaceTeamValue d.team ∧
    (d.name ≠ "TEAM" → (aliasDraft d).name = d.name) ∧
    (d.school ≠ "TEAM" → (aliasDraft d).school = d.school) ∧
    (d.position ≠ "TEAM" → (aliasDraft d).position = d.position) := by
  refine ⟨rfl, rfl, rfl, rfl, ?_, ?_, ?_⟩ <;>
    intro h <;> simp [aliasDraft, replaceTeamValue, h]

/-- Witness for the amended C7 at the Jane Doe draft row. -/
theorem normalizer_alias_frame_amended_witness :
    (aliasDraft dJane).school = dJane.school :=
  (normalizer_alias_frame_amended dJane).2.2.2.2.2.1 (by decide)

/-- Claim C8 as stated is false on the code: the load steps of lines 38 and
108 are bare `pd.read_csv` calls with no schema validation, so a source
missing every required draft column still loads successfully — no
`MalformedSourceError` exists. -/
theorem loader_schema_check_cex :
    ¬ (∀ t : RawTable,
        (∃ e, loadSource t = .error e) ↔
          ¬ ∀ col ∈ ["Year", "Round", "Overall", "Name", "School",
                     "Position", "Team"], col ∈ t.cols) := by
  intro h
  obtain ⟨e, he⟩ := (h (RawTable.mk [] [])).mpr (by decide)
  exact Except.noConfusion he

/-- Claim C8 (amended): the load step validates nothing — every source table
is accepted as-is, whatever its columns, with no row dropped or altered; a
missing required column is not detected at load time. -/
theorem loader_accepts_all (t : RawTable) : loadSource t = .ok t := rfl

/-- Claim C10: the height conversion applied to the merged `Ht` column is
total — each cell yields missing or an integer, never an error — a missing
(`NaN`) cell converts to missing, and an unmatched draft row, all of whose
measurement cells the left join filled with missing, still has every
measurement missing after the conversion. -/
theorem height_conversion_total_and_missing_safe :
    (∀ v : Option String,
      convertHtCell v = none ∨ ∃ n : Int, convertHtCell v = some n) ∧
    convertHtCell none = none ∧
    (∀ rs : List MergedRecord, convertHtColumn rs = rs.map convertRow) ∧
    (∀ m : MergedRecord, m.ht = none → (convertRow m).ht = none) ∧
    (∀ d : DraftRecord,
      (convertRow (unmatchedRow d)).ht = none ∧
      (convertRow (unmatchedRow d)).wt = none ∧
      (convertRow (unmatchedRow d)).forty = none ∧
      (convertRow (unmatchedRow d)).vertical = none ∧
      (convertRow (unmatchedRow d)).bench = none ∧
      (convertRow (unmatchedRow d)).broad = none ∧
      (convertRow (unmatchedRow d)).cone = none ∧
      (convertRow (unmatchedRow d)).shuttle = none) := by
  refine ⟨?_, rfl, fun rs => rfl, ?_, ?_⟩
  · intro v
    cases hv : convertHtCell v with
    | none => exact Or.inl rfl
    | some n => exact Or.inr ⟨n, rfl⟩
  · intro m hm
    show convertHtCell m.ht = none
    rw [hm]
    rfl
  · intro d
    exact ⟨rfl, rfl, rfl, rfl, rfl, rfl, rfl, rfl⟩

/-- Witness for C10's missing-cell clause at Jane Doe's unmatched row. -/
theorem height_conversion_total_and_missing_safe_witness :
    (convertRow (unmatchedRow dJane)).ht = none :=
  height_conversion_total_and_missing_safe.2.2.2.1 (unmatchedRow dJane) rfl

end NFLDraft
